import Mathlib

/-!
Verification development for the tool-execution governance hooks of the
everything-opencode repository.  The policy plugins are embedded from their
sources: `src/.opencode/plugins/env-protection.ts` (sensitive-file guard,
secret-content scan, bash secret-exposure checker),
`src/.opencode/plugins/test-watcher.ts` (dangerous-command blocker with its
warnings loop, and the console-log content matcher with its `g`-flagged
regexes), and `src/.opencode/plugins/session-summary.ts` (per-session
statistics).  The lifecycle dispatcher has no implementation in the
repository (it lives in the OpenCode host); it alone is modelled from the
specification, section 4.3.

Strings are modelled as lists of characters via `String.data`.  JavaScript
regular expressions are embedded as continuation-passing matchers over
character lists: a matcher consumes a prefix of the remaining input and
returns the rest on success.  Stars and optional groups take their
continuation explicitly, trying the shortest extension first, which decides
the same existence of a match as the backtracking JavaScript engine;
`RegExp.test` (search anywhere) is the matcher tried at every suffix.  The
`g`-flagged console patterns additionally carry their persistent
`lastIndex` state explicitly.
-/

/-- Character-level test that the input begins with the pattern. -/
def startsWithL : List Char → List Char → Bool
  | [], _ => true
  | _ :: _, [] => false
  | p :: ps, c :: cs => p == c && startsWithL ps cs

/-- Case-insensitive variant of `startsWithL`, comparing lowered
characters, for regexes carrying the JavaScript `i` flag. -/
def startsWithCI : List Char → List Char → Bool
  | [], _ => true
  | _ :: _, [] => false
  | p :: ps, c :: cs => p.toLower == c.toLower && startsWithCI ps cs

/-- Does some suffix of the input satisfy the predicate?  Used both for
substring containment and for unanchored regex search. -/
def anySuffix (f : List Char → Bool) : List Char → Bool
  | [] => f []
  | c :: cs => f (c :: cs) || anySuffix f cs

/-- Substring containment: does the input contain the pattern? -/
def containsSub (pat : List Char) (s : List Char) : Bool :=
  anySuffix (fun t => startsWithL pat t) s

/-- Substring containment on `String`s. -/
def containsStr (pat s : String) : Bool :=
  containsSub pat.data s.data

/-- Node `path.basename` on the character list: trailing slashes are
ignored, the segment after the last remaining slash is returned, and a path
consisting only of slashes yields a single slash. -/
def basenameL (cs : List Char) : List Char :=
  let r := cs.reverse.dropWhile (fun c => c == '/')
  if r.isEmpty && !cs.isEmpty then ['/']
  else (r.takeWhile (fun c => !(c == '/'))).reverse

/-- Node `path.basename` on strings, as used by env-protection.ts. -/
def basename (p : String) : String :=
  String.mk (basenameL p.data)

/-- A regex-like matcher: consume a prefix of the input, returning the
remaining input on success. -/
def Matcher : Type :=
  List Char → Option (List Char)

/-- Sequencing of matchers. -/
def mseq (a b : Matcher) : Matcher :=
  fun s => (a s).bind b

/-- Literal matcher (case-sensitive). -/
def mlit (pat : List Char) : Matcher :=
  fun s => if startsWithL pat s then some (s.drop pat.length) else none

/-- Literal matcher for regexes with the `i` flag. -/
def mlitCI (pat : List Char) : Matcher :=
  fun s => if startsWithCI pat s then some (s.drop pat.length) else none

/-- Single-character class matcher. -/
def mcls (p : Char → Bool) : Matcher :=
  fun s =>
    match s with
    | [] => none
    | c :: cs => if p c then some cs else none

/-- Alternation, trying the left branch first. -/
def malt (a b : Matcher) : Matcher :=
  fun s =>
    match a s with
    | some r => some r
    | none => b s

/-- Optional group in continuation style: a group parameterised by its
continuation, tried with the group present and with the group absent —
the same match existence a backtracking engine decides. -/
def moptThen (g : Matcher → Matcher) (k : Matcher) : Matcher :=
  malt (g k) k

/-- End-of-input anchor, the JavaScript `$` without the `m` flag. -/
def mEOS : Matcher :=
  fun s =>
    match s with
    | [] => some []
    | _ :: _ => none

/-- Class star with explicit continuation: try the continuation after
consuming zero, one, two, ... class characters.  Decides the same match
existence as a greedy backtracking star. -/
def mStarThen (p : Char → Bool) (k : Matcher) : List Char → Option (List Char)
  | [] => k []
  | c :: cs =>
    match k (c :: cs) with
    | some r => some r
    | none => if p c then mStarThen p k cs else none

/-- Class plus (one or more) with explicit continuation. -/
def mPlusThen (p : Char → Bool) (k : Matcher) : Matcher :=
  mseq (mcls p) (fun s => mStarThen p k s)

/-- Exactly `n` characters of a class. -/
def mexact (n : Nat) (p : Char → Bool) : Matcher :=
  fun s =>
    if (s.take n).length == n && (s.take n).all p then some (s.drop n)
    else none

/-- At least `n` characters of a class, with explicit continuation. -/
def mAtLeastThen (n : Nat) (p : Char → Bool) (k : Matcher) : Matcher :=
  mseq (mexact n p) (fun s => mStarThen p k s)

/-- The JavaScript `.` (no `s` flag): any character except a line
terminator. -/
def jsDot (c : Char) : Bool :=
  !(c == '\n' || c == '\r' || c == Char.ofNat 0x2028 || c == Char.ofNat 0x2029)

/-- The JavaScript `.*` followed by a continuation: try the continuation at
the current position and after each further non-line-terminator
character. -/
def mDotStarThen (k : Matcher) : List Char → Option (List Char)
  | [] => k []
  | c :: cs =>
    match k (c :: cs) with
    | some r => some r
    | none => if jsDot c then mDotStarThen k cs else none

/-- The JavaScript `\s` whitespace class. -/
def isSpaceJS (c : Char) : Bool :=
  c == ' ' || c == '\t' || c == '\n' || c == '\r'
    || c.toNat == 11 || c.toNat == 12 || c.toNat == 0xa0 || c.toNat == 0x1680
    || (decide (0x2000 ≤ c.toNat) && decide (c.toNat ≤ 0x200a))
    || c.toNat == 0x2028 || c.toNat == 0x2029 || c.toNat == 0x202f
    || c.toNat == 0x205f || c.toNat == 0x3000 || c.toNat == 0xfeff

/-- Double or single quote, the class ["'] of env-protection.ts. -/
def isQuote (c : Char) : Bool :=
  c == '"' || c == '\''

/-- The class [a-zA-Z0-9]. -/
def isAlnumJS (c : Char) : Bool :=
  c.isAlpha || c.isDigit

/-- The class [0-9A-Z] of the AWS access-key pattern: digits and uppercase
letters only. -/
def isUpperDigit (c : Char) : Bool :=
  c.isUpper || c.isDigit

/-- The JavaScript `\w` word class [A-Za-z0-9_]. -/
def isWordJS (c : Char) : Bool :=
  c.isAlpha || c.isDigit || c == '_'

/-- The class [A-Z_] under the `i` flag: letters of either case and the
underscore. -/
def isLetterUnder (c : Char) : Bool :=
  c.isAlpha || c == '_'

/-- The opening curly brace character. -/
def openBrace : Char :=
  Char.ofNat 123

/-- Unanchored `RegExp.test`: try the matcher at every suffix. -/
def testM (m : Matcher) (s : List Char) : Bool :=
  anySuffix (fun t => (m t).isSome) s

/-- The for-loop of the policy handlers over a pattern list: the index of
the first matching pattern, in declaration order. -/
def firstMatchIdx (ps : List Matcher) (s : List Char) : Option Nat :=
  match ps with
  | [] => none
  | p :: rest =>
    if testM p s then some 0 else (firstMatchIdx rest s).map (fun i => i + 1)

/-- SENSITIVE_PATTERNS of env-protection.ts lines 16-28, in declaration
order, each embedded from its regex; the regexes are tested against the
basename.  The second entry is dot-env-dot followed by one or more
non-line-terminator characters up to the end of the name. -/
def SENSITIVE_PATTERNS : List Matcher :=
  [mseq (mlit ".env".data) mEOS,
   mseq (mlit ".env.".data) (mPlusThen jsDot mEOS),
   mseq (mlit "credentials.json".data) mEOS,
   mseq (mlit "secrets.json".data) mEOS,
   mseq (mlit ".pem".data) mEOS,
   mseq (mlit ".key".data) mEOS,
   mlit "id_rsa".data,
   mlit "id_ed25519".data,
   mseq (mlit ".p12".data) mEOS,
   mseq (mlit ".pfx".data) mEOS,
   mlit "keystore".data]

/-- ALLOWED_FILES of env-protection.ts lines 31-35: basenames that override
the sensitive patterns. -/
def ALLOWED_FILES : List String :=
  [".env.example", ".env.template", ".env.sample"]

/-- isSensitiveFile of env-protection.ts lines 37-47: the basename is
checked against the allow-list first, then against the sensitive
patterns. -/
def isSensitiveFile (filePath : String) : Bool :=
  if ALLOWED_FILES.any (fun a => a.data == basenameL filePath.data) then false
  else SENSITIVE_PATTERNS.any (fun m => testM m (basenameL filePath.data))

/-- The secretPatterns list of env-protection.ts lines 74-80, in
declaration order: api-key, secret-key and password assignments quoting a
long value (all case-insensitive), the AWS access key AKIA followed by
exactly sixteen digits or uppercase letters, and a PEM private-key
header. -/
def SECRET_PATTERNS : List Matcher :=
  [mseq (mlitCI "api".data)
     (moptThen (fun k => mseq (mcls (fun c => c == '_' || c == '-')) k)
       (mseq (mlitCI "key".data)
         (mStarThen isSpaceJS
           (mseq (mcls (fun c => c == ':' || c == '='))
             (mStarThen isSpaceJS
               (mseq (mcls isQuote)
                 (mAtLeastThen 20 isAlnumJS (mcls isQuote)))))))),
   mseq (mlitCI "secret".data)
     (moptThen (fun k => mseq (mcls (fun c => c == '_' || c == '-')) k)
       (mseq (mlitCI "key".data)
         (mStarThen isSpaceJS
           (mseq (mcls (fun c => c == ':' || c == '='))
             (mStarThen isSpaceJS
               (mseq (mcls isQuote)
                 (mAtLeastThen 20 isAlnumJS (mcls isQuote)))))))),
   mseq (mlitCI "password".data)
     (mStarThen isSpaceJS
       (mseq (mcls (fun c => c == ':' || c == '='))
         (mStarThen isSpaceJS
           (mseq (mcls isQuote)
             (mAtLeastThen 8 (fun c => !isQuote c) (mcls isQuote)))))),
   mseq (mlit "AKIA".data) (mexact 16 isUpperDigit),
   mseq (mlit "-----BEGIN ".data)
     (moptThen
       (fun k =>
         malt (mseq (mlit "RSA ".data) k)
           (malt (mseq (mlit "DSA ".data) k) (mseq (mlit "EC ".data) k)))
       (mlit "PRIVATE KEY-----".data))]

/-- The secret-content loop of env-protection.ts lines 82-89: true when
some configured secret pattern matches the content. -/
def matchesAnySecret (content : String) : Bool :=
  (firstMatchIdx SECRET_PATTERNS content.data).isSome

/-- The read-denial message of env-protection.ts lines 56-57. -/
def readDeniedMsg (filePath : String) : String :=
  "🔒 Access denied: \"" ++ basename filePath ++ "\" contains sensitive data.\n"
    ++ "If you need to reference environment variables, use .env.example as a template."

/-- The write-denial message of env-protection.ts lines 66-67. -/
def writeDeniedMsg (filePath : String) : String :=
  "🔒 Write denied: Cannot modify sensitive file \"" ++ basename filePath ++ "\".\n"
    ++ "Manually edit this file or use .env.example for templates."

/-- The secret-detected message of env-protection.ts lines 85-86. -/
def secretDetectedMsg : String :=
  "🔒 Secret detected: Content appears to contain hardcoded credentials.\n"
    ++ "Please use environment variables instead of hardcoding secrets."

/-- Result of one plugin hook: let the operation proceed, or veto it with
the thrown error message. -/
inductive HookResult where
  | proceed : HookResult
  | abort : String → HookResult
deriving DecidableEq

/-- Whether a hook result is a veto. -/
def isAbort : HookResult → Bool
  | HookResult.proceed => false
  | HookResult.abort _ => true

/-- Arguments of a tool invocation: file path, content and shell command
(each tool uses the fields relevant to it; absent fields are the empty
string, which JavaScript treats as falsy). -/
structure ToolArgs where
  filePath : String
  content : String
  command : String
deriving DecidableEq

/-- The first tool.execute.before handler of env-protection.ts
lines 51-91: read tools are denied sensitive paths, write and edit tools
are denied sensitive paths and then have their content scanned against the
secret patterns.  Each guard requires the corresponding argument to be
truthy (non-empty). -/
def envGuardBefore (tool : String) (args : ToolArgs) : HookResult :=
  if tool == "read" && !(args.filePath == "") && isSensitiveFile args.filePath then
    HookResult.abort (readDeniedMsg args.filePath)
  else if (tool == "write" || tool == "edit") && !(args.filePath == "")
      && isSensitiveFile args.filePath then
    HookResult.abort (writeDeniedMsg args.filePath)
  else if (tool == "write" || tool == "edit") && !(args.content == "")
      && matchesAnySecret args.content then
    HookResult.abort secretDetectedMsg
  else
    HookResult.proceed

/-- The dangerousCommands list of the second tool.execute.before handler of
env-protection.ts lines 96-103, in declaration order: cat of a dot-env
file, echo of a KEY/SECRET/PASSWORD variable (case-insensitive, with an
optional opening brace after the dollar), printenv, and export of a long
quoted literal. -/
def ENV_BASH_PATTERNS : List Matcher :=
  [mseq (mlit "cat".data) (mPlusThen isSpaceJS (mDotStarThen (mlit ".env".data))),
   mseq (mlitCI "echo".data)
     (mPlusThen isSpaceJS
       (mDotStarThen
         (mseq (mlit "$".data)
           (moptThen (fun k => mseq (mcls (fun c => c == openBrace)) k)
             (mStarThen isLetterUnder (mlitCI "KEY".data)))))),
   mseq (mlitCI "echo".data)
     (mPlusThen isSpaceJS
       (mDotStarThen
         (mseq (mlit "$".data)
           (moptThen (fun k => mseq (mcls (fun c => c == openBrace)) k)
             (mStarThen isLetterUnder (mlitCI "SECRET".data)))))),
   mseq (mlitCI "echo".data)
     (mPlusThen isSpaceJS
       (mDotStarThen
         (mseq (mlit "$".data)
           (moptThen (fun k => mseq (mcls (fun c => c == openBrace)) k)
             (mStarThen isLetterUnder (mlitCI "PASSWORD".data)))))),
   mlit "printenv".data,
   mseq (mlit "export".data)
     (mPlusThen isSpaceJS
       (mDotStarThen
         (mseq (mlit "=".data)
           (mDotStarThen
             (mseq (mcls isQuote)
               (mAtLeastThen 20 (fun c => !isQuote c) (mcls isQuote)))))))]

/-- The blocked-command message of env-protection.ts lines 108-109. -/
def envBashBlockedMsg : String :=
  "🔒 Command blocked: This command may expose sensitive data.\n"
    ++ "Avoid printing or echoing environment variables with secrets."

/-- The second tool.execute.before handler of env-protection.ts
lines 94-114: bash commands matching a secret-exposure pattern are
blocked. -/
def envBashBefore (tool : String) (args : ToolArgs) : HookResult :=
  if tool == "bash" && !(args.command == "") then
    if (firstMatchIdx ENV_BASH_PATTERNS args.command.data).isSome then
      HookResult.abort envBashBlockedMsg
    else HookResult.proceed
  else HookResult.proceed

/-- Type of the hook functions stored in a plugin's returned object. -/
def HookFn : Type :=
  String → ToolArgs → HookResult

/-- The object literal returned by env-protection.ts lines 50-115, as the
ordered list of key/value entries it is written with: the file defines the
key tool.execute.before twice, first the env/secret guard (lines 51-91),
then the bash-command checker (lines 94-114). -/
def envProtectionLiteral : List (String × HookFn) :=
  [("tool.execute.before", envGuardBefore),
   ("tool.execute.before", envBashBefore)]

/-- One step of JavaScript object-literal construction: a later entry for
an existing key replaces the earlier value in place, otherwise the entry is
appended. -/
def setKey : List (String × HookFn) → String × HookFn → List (String × HookFn)
  | [], kv => [kv]
  | (k, v) :: rest, kv =>
    if k == kv.1 then (k, kv.2) :: rest else (k, v) :: setKey rest kv

/-- JavaScript object-literal semantics: entries are installed in textual
order, later duplicates silently replacing earlier ones. -/
def objFromLiteral (entries : List (String × HookFn)) : List (String × HookFn) :=
  entries.foldl setKey []

/-- Key lookup in a constructed object. -/
def lookupKey : List (String × HookFn) → String → Option HookFn
  | [], _ => none
  | (k, v) :: rest, key => if k == key then some v else lookupKey rest key

/-- Invoking a plugin's hook for an event: look the event key up in the
plugin's constructed object and run the stored function, proceeding when no
hook is installed. -/
def pluginInvoke (obj : List (String × HookFn)) (event tool : String)
    (args : ToolArgs) : HookResult :=
  match lookupKey obj event with
  | some f => f tool args
  | none => HookResult.proceed

/-- DANGEROUS_COMMANDS of test-watcher.ts lines 188-204, each embedded from
its regex, in declaration order: recursive deletes of root, home, star and
parent paths, raw writes to block devices, mkfs, dd onto devices, recursive
chmod 777, curl/wget piped to a shell, forced pushes to main or master,
hard resets to origin, and destructive SQL statements (the last four
case-insensitive, the final one anchored at end of input). -/
def DANGEROUS_COMMANDS : List Matcher :=
  [mseq (mlit "rm".data)
     (mPlusThen isSpaceJS
       (mseq (mlit "-rf".data)
         (mPlusThen isSpaceJS (mcls (fun c => c == '/' || c == '~'))))),
   mseq (mlit "rm".data)
     (mPlusThen isSpaceJS
       (mseq (mlit "-rf".data) (mPlusThen isSpaceJS (mcls (fun c => c == '*'))))),
   mseq (mlit "rm".data)
     (mPlusThen isSpaceJS
       (mseq (mlit "-rf".data) (mPlusThen isSpaceJS (mlit "..".data)))),
   mseq (mlit ">".data)
     (mStarThen isSpaceJS (mseq (mlit "/dev/sd".data) (mcls Char.isLower))),
   mlit "mkfs.".data,
   mseq (mlit "dd".data)
     (mPlusThen isSpaceJS
       (mseq (mlit "if=".data) (mDotStarThen (mlit "of=/dev".data)))),
   mseq (mlit "chmod".data)
     (mPlusThen isSpaceJS
       (mseq (mlit "-R".data) (mPlusThen isSpaceJS (mlit "777".data)))),
   mseq (mlit "curl".data)
     (mDotStarThen
       (mseq (mlit "|".data)
         (mStarThen isSpaceJS
           (moptThen (fun k => mseq (mlit "ba".data) k) (mlit "sh".data))))),
   mseq (mlit "wget".data)
     (mDotStarThen
       (mseq (mlit "|".data)
         (mStarThen isSpaceJS
           (moptThen (fun k => mseq (mlit "ba".data) k) (mlit "sh".data))))),
   mseq (mlit "git".data)
     (mPlusThen isSpaceJS
       (mseq (mlit "push".data)
         (mDotStarThen
           (mseq (mlit "--force".data)
             (mPlusThen isSpaceJS
               (moptThen
                 (fun k => mseq (mlit "origin".data) (mPlusThen isSpaceJS k))
                 (malt (mlit "main".data) (mlit "master".data)))))))),
   mseq (mlit "git".data)
     (mPlusThen isSpaceJS
       (mseq (mlit "reset".data)
         (mPlusThen isSpaceJS
           (mseq (mlit "--hard".data) (mPlusThen isSpaceJS (mlit "origin".data)))))),
   mseq (mlitCI "drop".data) (mPlusThen isSpaceJS (mlitCI "database".data)),
   mseq (mlitCI "drop".data) (mPlusThen isSpaceJS (mlitCI "table".data)),
   mseq (mlitCI "truncate".data) (mPlusThen isSpaceJS (mlitCI "table".data)),
   mseq (mlitCI "delete".data)
     (mPlusThen isSpaceJS
       (mseq (mlitCI "from".data)
         (mPlusThen isSpaceJS
           (mAtLeastThen 1 isWordJS
             (mStarThen isSpaceJS
               (moptThen (fun k => mseq (mcls (fun c => c == ';')) k)
                 (mStarThen isSpaceJS mEOS)))))))]

/-- The generic blocked message of test-watcher.ts lines 224-227, built
from the first fifty characters of the command. -/
def blockedMessage (cmd : String) : String :=
  "🚫 Dangerous command blocked: \"" ++ String.mk (cmd.data.take 50)
    ++ "...\"\nThis command could cause irreversible damage."

/-- A warn-only rule of test-watcher.ts: a pattern and its message. -/
structure Warning where
  pattern : Matcher
  message : String

/-- Warning rule npm publish of test-watcher.ts line 207. -/
def warnNpmPublish : Warning :=
  ⟨mseq (mlit "npm".data) (mPlusThen isSpaceJS (mlit "publish".data)),
   "Publishing to npm registry"⟩

/-- Warning rule docker push of test-watcher.ts line 208. -/
def warnDockerPush : Warning :=
  ⟨mseq (mlit "docker".data) (mPlusThen isSpaceJS (mlit "push".data)),
   "Pushing Docker image"⟩

/-- Warning rule kubectl delete of test-watcher.ts line 209. -/
def warnKubectlDelete : Warning :=
  ⟨mseq (mlit "kubectl".data) (mPlusThen isSpaceJS (mlit "delete".data)),
   "Deleting Kubernetes resources"⟩

/-- Warning rule terraform destroy of test-watcher.ts line 210. -/
def warnTerraformDestroy : Warning :=
  ⟨mseq (mlit "terraform".data) (mPlusThen isSpaceJS (mlit "destroy".data)),
   "Destroying Terraform infrastructure"⟩

/-- Warning rule aws delete of test-watcher.ts line 211. -/
def warnAwsDelete : Warning :=
  ⟨mseq (mlit "aws".data) (mPlusThen isSpaceJS (mDotStarThen (mlit "delete".data))),
   "Deleting AWS resources"⟩

/-- WARNINGS of test-watcher.ts lines 206-212, in declaration order. -/
def WARNINGS : List Warning :=
  [warnNpmPublish, warnDockerPush, warnKubectlDelete, warnTerraformDestroy,
   warnAwsDelete]

/-- The warnings loop of test-watcher.ts lines 231-236 over an arbitrary
rule list: it has no break, so the messages of every matching rule are
collected, in declaration order. -/
def warningLogsFor (ws : List Warning) (cmd : String) : List String :=
  (ws.filter (fun w => testM w.pattern cmd.data)).map Warning.message

/-- The warnings reported for a command by the configured WARNINGS list. -/
def warningLogs (cmd : String) : List String :=
  warningLogsFor WARNINGS cmd

/-- The tool.execute.before handler of test-watcher.ts lines 216-237: on
the bash tool with a truthy command, the first matching dangerous pattern
aborts with the generic blocked message; warning matches only log and never
affect the outcome. -/
def dangerousCmdBefore (tool : String) (args : ToolArgs) : HookResult :=
  if tool == "bash" && !(args.command == "") then
    if (firstMatchIdx DANGEROUS_COMMANDS args.command.data).isSome then
      HookResult.abort (blockedMessage args.command)
    else HookResult.proceed
  else HookResult.proceed

/-- CONSOLE_PATTERNS of test-watcher.ts lines 47-51: the literal bodies of
the three `g`-flagged regexes console.log, console.debug and
console.info. -/
def CONSOLE_PATTERNS : List (List Char) :=
  ["console.log(".data, "console.debug(".data, "console.info(".data]

/-- ALLOWED_PATTERNS of test-watcher.ts lines 53-58: the literal bodies of
the flagless allowed regexes console.error, console.warn, console.time and
console.table. -/
def ALLOWED_PATTERNS : List (List Char) :=
  ["console.error(".data, "console.warn(".data, "console.time".data,
   "console.table(".data]

/-- First occurrence position of a literal pattern in the input, if any. -/
def findOcc (pat : List Char) : List Char → Option Nat
  | [] => if startsWithL pat [] then some 0 else none
  | c :: cs =>
    if startsWithL pat (c :: cs) then some 0
    else (findOcc pat cs).map (fun i => i + 1)

/-- `RegExp.test` of a `g`-flagged literal regex: the search starts at the
persistent lastIndex; on a hit the new lastIndex is the end of the match,
on a miss it is reset to zero. -/
def gLitTest (pat : List Char) (li : Nat) (s : List Char) : Bool × Nat :=
  match findOcc pat (s.drop li) with
  | some k => (true, li + k + pat.length)
  | none => (false, 0)

/-- The `Array.some` call over the `g`-flagged console patterns of
test-watcher.ts line 68, threading each pattern's lastIndex: `some` stops
at the first hit, leaving the lastIndex of the later patterns untouched;
patterns consulted and missed are reset to zero. -/
def someG (pats : List (List Char)) (st : List Nat) (line : List Char) :
    Bool × List Nat :=
  match pats, st with
  | [], _ => (false, [])
  | _ :: _, [] => (false, [])
  | p :: ps, li :: ls =>
    let r := gLitTest p li line
    if r.1 then (true, r.2 :: ls)
    else
      let rest := someG ps ls line
      (rest.1, r.2 :: rest.2)

/-- Split a character list into lines at newline characters, as
`String.split` with a newline separator does. -/
def splitLinesL : List Char → List (List Char)
  | [] => [[]]
  | c :: cs =>
    if c = '\n' then [] :: splitLinesL cs
    else
      match splitLinesL cs with
      | [] => [[c]]
      | l :: ls => (c :: l) :: ls

/-- The forEach loop of containsConsoleLog (test-watcher.ts lines 64-72):
a line matching an allowed pattern is skipped before the console patterns
are consulted; otherwise the stateful console patterns are tried and a hit
records the one-based line number.  Returns the offending line numbers and
the final pattern state. -/
def consoleScanLines (st : List Nat) (idx : Nat) :
    List (List Char) → List Nat × List Nat
  | [] => ([], st)
  | l :: rest =>
    if ALLOWED_PATTERNS.any (fun p => containsSub p l) then
      consoleScanLines st (idx + 1) rest
    else
      let r := someG CONSOLE_PATTERNS st l
      let rec' := consoleScanLines r.2 (idx + 1) rest
      (if r.1 then (idx + 1) :: rec'.1 else rec'.1, rec'.2)

/-- containsConsoleLog of test-watcher.ts lines 60-75, with the persistent
lastIndex state of the module-level `g`-flagged regexes made explicit: from
a pattern state and the content, the found flag with the offending line
numbers, and the state left for the next call. -/
def containsConsoleLog (st : List Nat) (content : String) :
    (Bool × List Nat) × List Nat :=
  let r := consoleScanLines st 0 (splitLinesL content.data)
  ((!r.1.isEmpty, r.1), r.2)

/-- The lastIndex state of the three console patterns at module load. -/
def initConsoleState : List Nat :=
  [0, 0, 0]

/-- Formalisation of claim wording, not of the source: content containing
the literal AKIA followed by sixteen alphanumeric characters, with
alphanumeric admitting letters of either case — the source pattern admits
only digits and uppercase letters. -/
def claimStartsAKIA16 : List Char → Bool
  | 'A' :: 'K' :: 'I' :: 'A' :: rest =>
    ((rest.take 16).length == 16) && (rest.take 16).all isAlnumJS
  | _ => false

/-- Formalisation of claim wording, not of the source: does the content
contain AKIA followed by sixteen alphanumeric characters anywhere? -/
def claimContainsAKIA16 : List Char → Bool
  | [] => false
  | c :: cs => claimStartsAKIA16 (c :: cs) || claimContainsAKIA16 cs

/-- Result of one handler invocation inside the lifecycle dispatcher:
observe-only success, a payload transformation, an intentional policy
violation carrying a reason, or an unexpected failure (spec section 4.3). -/
inductive HRes (π : Type) where
  | ok : HRes π
  | transform : π → HRes π
  | violation : String → HRes π
  | failure : String → HRes π
deriving DecidableEq

/-- Outcome of dispatching one event occurrence (spec section 3). -/
inductive Outcome (π : Type) where
  | Proceed : π → Outcome π
  | Abort : String → Outcome π
deriving DecidableEq

/-- Modelled from the spec: the lifecycle dispatcher of section 4.3, which
has no implementation in the repository (it belongs to the OpenCode host);
instrumented with an invocation trace.  Starting at registration index `i`,
run the handlers in order, threading the payload through transformations;
a policy violation stops the loop immediately and produces an abort; an
unexpected failure is isolated and treated as observe-only.  The second
component records the indices of the handlers actually invoked, in
invocation order. -/
def dispatchFrom {π : Type} (i : Nat) :
    List (π → HRes π) → π → Outcome π × List Nat
  | [], p => (Outcome.Proceed p, [])
  | h :: hs, p =>
    match h p with
    | HRes.violation r => (Outcome.Abort r, [i])
    | HRes.transform q =>
      ((dispatchFrom (i + 1) hs q).1, i :: (dispatchFrom (i + 1) hs q).2)
    | HRes.ok =>
      ((dispatchFrom (i + 1) hs p).1, i :: (dispatchFrom (i + 1) hs p).2)
    | HRes.failure _ =>
      ((dispatchFrom (i + 1) hs p).1, i :: (dispatchFrom (i + 1) hs p).2)

/-- Dispatch an event occurrence to an ordered handler list. -/
def dispatch {π : Type} (hs : List (π → HRes π)) (p : π) : Outcome π :=
  (dispatchFrom 0 hs p).1

/-- An observe-only handler over `Nat` payloads, used to instantiate the
dispatcher theorems on concrete data. -/
def okHandler : Nat → HRes Nat :=
  fun _ => HRes.ok

/-- A handler over `Nat` payloads that always vetoes, used to instantiate
the dispatcher theorems on concrete data. -/
def vioHandler : Nat → HRes Nat :=
  fun _ => HRes.violation "policy violation: blocked"

/-- The SessionStats record of session-summary.ts lines 3-9; the toolsUsed
map is carried as an association list. -/
structure SessionStats where
  startTime : Nat
  filesCreated : List String
  filesEdited : List String
  toolsUsed : List (String × Nat)
  errors : List String
deriving DecidableEq

/-- The session.create handler of session-summary.ts lines 15-23: the
module-level stats variable (initially null) is replaced by a fresh
record. -/
def onSessionCreate (now : Nat) (_st : Option SessionStats) :
    Option SessionStats :=
  some { startTime := now, filesCreated := [], filesEdited := [],
         toolsUsed := [], errors := [] }

/-- The body of the file.create handler of session-summary.ts lines 25-29
on a live record: the created path is pushed unconditionally. -/
def fileCreateStats (s : SessionStats) (filePath : String) : SessionStats :=
  { s with filesCreated := s.filesCreated ++ [filePath] }

/-- The file.create handler of session-summary.ts lines 25-29: a no-op
while stats is null. -/
def onFileCreate (st : Option SessionStats) (filePath : String) :
    Option SessionStats :=
  match st with
  | none => none
  | some s => some (fileCreateStats s filePath)

/-- The body of the file.edit handler of session-summary.ts lines 31-35 on
a live record: the edited path is pushed only when not already present. -/
def fileEditStats (s : SessionStats) (filePath : String) : SessionStats :=
  if filePath ∈ s.filesEdited then s
  else { s with filesEdited := s.filesEdited ++ [filePath] }

/-- The file.edit handler of session-summary.ts lines 31-35: a no-op while
stats is null. -/
def onFileEdit (st : Option SessionStats) (filePath : String) :
    Option SessionStats :=
  match st with
  | none => none
  | some s => some (fileEditStats s filePath)

/-- A literal matcher for the word npm, used to instantiate the first-match
theorem on concrete data. -/
def probeNpm : Matcher :=
  mlit "npm".data

/-- A literal matcher for the word rm, used to instantiate the first-match
theorem on concrete data. -/
def probeRm : Matcher :=
  mlit "rm".data

/-- A literal matcher for rm dash rf, declared after `probeRm` in the
concrete first-match instance and also matching its input. -/
def probeRmRf : Matcher :=
  mlit "rm -rf".data

/-- If the input begins with the pattern, the prefix test succeeds. -/
theorem startsWithL_self (p rest : List Char) : startsWithL p (p ++ rest) = true := by
  induction p with
  | nil => rfl
  | cons c cs ih => simp [startsWithL, ih]

/-- A literal matcher consumes itself off the front of the input. -/
theorem mlit_append (pat t : List Char) : mlit pat (pat ++ t) = some t := by
  simp [mlit, startsWithL_self, List.drop_left]

/-- A suffix predicate holding of `rest` holds of some suffix of any
extension of `rest` to the left. -/
theorem anySuffix_append (f : List Char → Bool) (pre rest : List Char)
    (h : f rest = true) : anySuffix f (pre ++ rest) = true := by
  induction pre with
  | nil =>
    cases rest with
    | nil => simpa [anySuffix] using h
    | cons c cs => simp [anySuffix, h]
  | cons c cs ih => simp [anySuffix, ih]

/-- The policy for-loop finds a match whenever some pattern of the list
matches the input. -/
theorem firstMatchIdx_isSome_of_mem (m : Matcher) (s : List Char) :
    ∀ ps : List Matcher, m ∈ ps → testM m s = true →
    (firstMatchIdx ps s).isSome = true := by
  intro ps
  induction ps with
  | nil => intro hmem _; cases hmem
  | cons p rest ih =>
    intro hmem ht
    by_cases hp : testM p s = true
    · simp [firstMatchIdx, hp]
    · have hb : testM p s = false := by simpa using hp
      rcases List.mem_cons.mp hmem with he | hm
      · exact absurd (he ▸ ht) hp
      · obtain ⟨v, hv⟩ := Option.isSome_iff_exists.mp (ih hm ht)
        simp [firstMatchIdx, hb, hv]

/-- The policy for-loop returns the index of the first matching pattern:
whatever patterns follow it, matching or not. -/
theorem firstMatchIdx_append_first (ps₂ : List Matcher) (m : Matcher)
    (s : List Char) :
    ∀ ps₁ : List Matcher, testM m s = true → (∀ n ∈ ps₁, testM n s = false) →
    firstMatchIdx (ps₁ ++ m :: ps₂) s = some ps₁.length := by
  intro ps₁
  induction ps₁ with
  | nil => intro hm _; simp [firstMatchIdx, hm]
  | cons n ns ih =>
    intro hm hnm
    have hn := hnm n (List.mem_cons_self n ns)
    simp only [List.cons_append, firstMatchIdx, hn, Bool.false_eq_true, if_false,
      List.append_eq]
    rw [ih hm (fun x hx => hnm x (List.mem_cons_of_mem n hx))]
    simp

/-- The dispatcher's invocation trace from any start index is the
contiguous index range of its own length, and never exceeds the number of
registered handlers: handlers are invoked in registration order, each at
most once, with no skips. -/
theorem dispatchFrom_trace_initial {π : Type} :
    ∀ (hs : List (π → HRes π)) (i : Nat) (p : π),
      (dispatchFrom i hs p).2 = List.range' i (dispatchFrom i hs p).2.length
      ∧ (dispatchFrom i hs p).2.length ≤ hs.length := by
  intro hs
  induction hs with
  | nil => intro i p; simp [dispatchFrom]
  | cons h hs ih =>
    intro i p
    rcases e : h p with _ | q | s | m
    · have hr := ih (i + 1) p
      constructor
      · simp only [dispatchFrom, e, List.length_cons, List.range'_succ]
        exact congrArg (fun t => i :: t) hr.1
      · simp only [dispatchFrom, e, List.length_cons]
        exact Nat.succ_le_succ hr.2
    · have hr := ih (i + 1) q
      constructor
      · simp only [dispatchFrom, e, List.length_cons, List.range'_succ]
        exact congrArg (fun t => i :: t) hr.1
      · simp only [dispatchFrom, e, List.length_cons]
        exact Nat.succ_le_succ hr.2
    · constructor
      · simp [dispatchFrom, e, List.range']
      · simp only [dispatchFrom, e, List.length_cons]
        exact Nat.succ_le_succ (Nat.zero_le _)
    · have hr := ih (i + 1) p
      constructor
      · simp only [dispatchFrom, e, List.length_cons, List.range'_succ]
        exact congrArg (fun t => i :: t) hr.1
      · simp only [dispatchFrom, e, List.length_cons]
        exact Nat.succ_le_succ hr.2

/-- The dispatcher run from any start index aborts at the first violating
handler: with the handlers before it never violating and the violator
always violating with reason `r`, the outcome is `Abort r` and the trace of
invoked handlers is exactly the contiguous index range covering the earlier
handlers and the violator, so every later handler is uninvoked. -/
theorem dispatchFrom_abort_at_violator {π : Type}
    (hs₂ : List (π → HRes π)) (vh : π → HRes π) (r : String)
    (hv : ∀ q, vh q = HRes.violation r) :
    ∀ (hs₁ : List (π → HRes π)),
      (∀ h ∈ hs₁, ∀ x s, h x ≠ HRes.violation s) →
      ∀ (i : Nat) (p : π),
        dispatchFrom i (hs₁ ++ vh :: hs₂) p
          = (Outcome.Abort r, List.range' i (hs₁.length + 1)) := by
  intro hs₁
  induction hs₁ with
  | nil =>
    intro _ i p
    simp [dispatchFrom, hv p, List.range']
  | cons h hs ih =>
    intro hnv i p
    have hrec := ih (fun g hg => hnv g (List.mem_cons_of_mem h hg))
    rcases e : h p with _ | q | s | m
    · simp [dispatchFrom, e, hrec (i + 1) p, List.range'_succ]
    · simp [dispatchFrom, e, hrec (i + 1) q, List.range'_succ]
    · exact absurd e (hnv h (List.mem_cons_self h hs) p s)
    · simp [dispatchFrom, e, hrec (i + 1) p, List.range'_succ]

/-- C1: the object literal returned by env-protection.ts defines the key
tool.execute.before twice; under JavaScript object-literal semantics the
second definition replaces the first, so the plugin's effective
tool.execute.before handler is exactly the bash-command checker of
lines 94-114, the first handler (sensitive-file checks and secret scan of
lines 51-91) is silently dropped and never invoked for any invocation
dispatched through the plugin, and the two handlers genuinely differ. -/
theorem env_protection_duplicate_hook_key :
    envProtectionLiteral.map Prod.fst
        = ["tool.execute.before", "tool.execute.before"]
    ∧ (∀ tool args,
        pluginInvoke (objFromLiteral envProtectionLiteral) "tool.execute.before"
            tool args
          = envBashBefore tool args)
    ∧ envGuardBefore "write" ⟨".env", "", ""⟩ ≠ envBashBefore "write" ⟨".env", "", ""⟩ :=
  ⟨rfl, fun _ _ => rfl, by decide⟩

/-- C3 counterexample: content consisting of the literal AKIA followed by
sixteen lowercase letters contains AKIA followed by sixteen alphanumeric
characters in the claim's sense, yet the write proceeds — the source
pattern admits only digits and uppercase letters after AKIA, so the claim
as stated is false of the code. -/
theorem secret_scan_lowercase_akia_proceeds :
    claimContainsAKIA16 "AKIAabcdefghijklmnop".data = true
    ∧ envGuardBefore "write" ⟨"notes.txt", "AKIAabcdefghijklmnop", ""⟩
        = HookResult.proceed :=
  ⟨by decide, by decide⟩

/-- C3 (amended): a write whose content contains the literal AKIA followed
by sixteen characters that are digits or uppercase letters is aborted by
the guard, whatever the path; and a write whose content matches none of the
five configured secret patterns, to a non-sensitive path, proceeds without
error. -/
theorem secret_scan_blocks_akia_allows_clean
    (path content p c : String) (pre key post : List Char)
    (hkey : key.length = 16) (hupper : key.all isUpperDigit = true)
    (hcontent : content.data = pre ++ ("AKIA".data ++ (key ++ post)))
    (hp : isSensitiveFile p = false) (hc : matchesAnySecret c = false) :
    isAbort (envGuardBefore "write" ⟨path, content, ""⟩) = true
    ∧ envGuardBefore "write" ⟨p, c, ""⟩ = HookResult.proceed := by
  have htake : (key ++ post).take 16 = key := by
    rw [← hkey]
    exact List.take_left key post
  have hm : ((mseq (mlit "AKIA".data) (mexact 16 isUpperDigit))
      ("AKIA".data ++ (key ++ post))).isSome = true := by
    show ((mlit "AKIA".data ("AKIA".data ++ (key ++ post))).bind
        (mexact 16 isUpperDigit)).isSome = true
    rw [mlit_append]
    show (mexact 16 isUpperDigit (key ++ post)).isSome = true
    unfold mexact
    rw [htake, hkey]
    simp [hupper]
  have hmem : (mseq (mlit "AKIA".data) (mexact 16 isUpperDigit)) ∈ SECRET_PATTERNS := by
    unfold SECRET_PATTERNS
    exact List.mem_cons_of_mem _ (List.mem_cons_of_mem _
      (List.mem_cons_of_mem _ (List.mem_cons_self _ _)))
  have htest : testM (mseq (mlit "AKIA".data) (mexact 16 isUpperDigit))
      content.data = true := by
    unfold testM
    rw [hcontent]
    exact anySuffix_append _ pre _ hm
  have hsec : matchesAnySecret content = true :=
    firstMatchIdx_isSome_of_mem _ _ SECRET_PATTERNS hmem htest
  have hcne : (content == "") = false := by
    refine beq_eq_false_iff_ne.mpr ?_
    intro he
    rw [he] at hcontent
    have h0 : pre ++ ("AKIA".data ++ (key ++ post)) = ([] : List Char) :=
      hcontent.symm
    rcases List.append_eq_nil.mp h0 with ⟨-, h2⟩
    rcases List.append_eq_nil.mp h2 with ⟨h3, -⟩
    exact absurd h3 (by decide)
  constructor
  · rcases Bool.eq_false_or_eq_true (!(path == "") && isSensitiveFile path)
      with hcond | hcond <;>
      simp [envGuardBefore, hcond, hsec, hcne, isAbort]
  · simp [envGuardBefore, hp, hc]

/-- Witness for C3 (amended) at concrete content containing an AWS access
key and concrete clean content. -/
theorem secret_scan_blocks_akia_allows_clean_witness :
    isAbort (envGuardBefore "write"
        ⟨"notes.txt", "key AKIA0123456789ABCDEF here", ""⟩) = true
    ∧ envGuardBefore "write" ⟨"notes.txt", "hello world", ""⟩ = HookResult.proceed :=
  secret_scan_blocks_akia_allows_clean "notes.txt" "key AKIA0123456789ABCDEF here"
    "notes.txt" "hello world" "key ".data "0123456789ABCDEF".data " here".data
    (by decide) (by decide) (by decide) (by decide) (by decide)

/-- C4: the bash command `rm -rf /` is blocked by the dangerous-command
handler of test-watcher.ts with the message naming irreversible damage, and
`git status`, matching none of the fifteen dangerous rules, proceeds
unchanged. -/
theorem dangerous_command_rm_rf_blocked_git_status_proceeds :
    dangerousCmdBefore "bash" ⟨"", "", "rm -rf /"⟩
      = HookResult.abort (blockedMessage "rm -rf /")
    ∧ containsStr "irreversible damage" (blockedMessage "rm -rf /") = true
    ∧ dangerousCmdBefore "bash" ⟨"", "", "git status"⟩ = HookResult.proceed :=
  ⟨by decide, by decide, by decide⟩

/-- C5: dispatch invokes handlers in exactly registration order for every
handler sequence and payload — the invocation trace is always the initial
contiguous index range, never longer than the registration list — and when
the sequence contains a handler raising a policy violation (the handlers
before it never violating), dispatch returns Abort with that reason having
invoked exactly the handlers up to and including the violator, so no
handler registered after it runs (short-circuit). -/
theorem dispatch_registration_order_short_circuit {π : Type}
    (hs hs₁ hs₂ : List (π → HRes π)) (vh : π → HRes π) (p q : π) (r : String)
    (h₁ : ∀ h ∈ hs₁, ∀ x s, h x ≠ HRes.violation s)
    (h₂ : ∀ x, vh x = HRes.violation r) :
    ((dispatchFrom 0 hs q).2 = List.range' 0 (dispatchFrom 0 hs q).2.length
        ∧ (dispatchFrom 0 hs q).2.length ≤ hs.length)
    ∧ dispatchFrom 0 (hs₁ ++ vh :: hs₂) p
        = (Outcome.Abort r, List.range' 0 (hs₁.length + 1)) :=
  ⟨dispatchFrom_trace_initial hs 0 q,
   dispatchFrom_abort_at_violator hs₂ vh r h₂ hs₁ h₁ 0 p⟩

/-- Witness for C5: one observe-only handler, a vetoing handler, then a
third handler; the trace of a full dispatch is an initial index range, and
the dispatch aborts with the veto reason having invoked only the first two
handlers, in order. -/
theorem dispatch_registration_order_short_circuit_witness :
    ((dispatchFrom 0 [okHandler, vioHandler, okHandler] 0).2
        = List.range' 0 (dispatchFrom 0 [okHandler, vioHandler, okHandler] 0).2.length
      ∧ (dispatchFrom 0 [okHandler, vioHandler, okHandler] 0).2.length
          ≤ [okHandler, vioHandler, okHandler].length)
    ∧ dispatchFrom 0 ([okHandler] ++ vioHandler :: [okHandler]) 0
        = (Outcome.Abort "policy violation: blocked",
           List.range' 0 ([okHandler].length + 1)) :=
  dispatch_registration_order_short_circuit
    [okHandler, vioHandler, okHandler] [okHandler] [okHandler] vioHandler 0 0
    "policy violation: blocked"
    (by
      intro h hm x s
      simp only [List.mem_singleton] at hm
      subst hm
      simp [okHandler])
    (fun _ => rfl)

/-- C6 counterexample: the command matching both the kubectl-delete rule
and the later-declared aws-delete rule of the WARNINGS set has both
messages reported by the warnings loop of test-watcher.ts lines 231-236
(which has no break), refuting the claim that for every rule set the result
carries only the first-declared matching rule. -/
theorem warnings_loop_reports_later_match :
    warningLogs "aws kubectl delete pods"
      = ["Deleting Kubernetes resources", "Deleting AWS resources"] := by
  decide

/-- C6 (amended): the dangerous-command loop and the sensitive-file check
stop at the first matching rule — the loop over any pattern list returns
the index of the first-declared matching pattern, whatever matching
patterns are declared after it — while the warnings loop reports every
matching rule: any matching rule of a warnings list contributes its
message, wherever it is declared. -/
theorem first_match_dangerous_all_matches_warned
    (ps₁ ps₂ : List Matcher) (m : Matcher) (s : List Char)
    (ws₁ ws₂ : List Warning) (w : Warning) (cmd : String)
    (hm : testM m s = true) (hnm : ∀ n ∈ ps₁, testM n s = false)
    (hw : testM w.pattern cmd.data = true) :
    firstMatchIdx (ps₁ ++ m :: ps₂) s = some ps₁.length
    ∧ w.message ∈ warningLogsFor (ws₁ ++ w :: ws₂) cmd := by
  constructor
  · exact firstMatchIdx_append_first ps₂ m s ps₁ hm hnm
  · have hmemw : w ∈ ws₁ ++ w :: ws₂ :=
      List.mem_append_right _ (List.mem_cons_self w ws₂)
    unfold warningLogsFor
    exact List.mem_map_of_mem _ (List.mem_filter.mpr ⟨hmemw, hw⟩)

/-- Witness for C6 (amended): the input matches both `probeRm` and the
later-declared `probeRmRf`, and the loop reports index 1, the position of
`probeRm`; the warnings command matches both the kubectl rule and the
aws rule, and the kubectl message is among the reported ones. -/
theorem first_match_dangerous_all_matches_warned_witness :
    firstMatchIdx ([probeNpm] ++ probeRm :: [probeRmRf]) "rm -rf /tmp".data
      = some [probeNpm].length
    ∧ warnKubectlDelete.message ∈
        warningLogsFor
          ([warnNpmPublish, warnDockerPush]
            ++ warnKubectlDelete :: [warnTerraformDestroy, warnAwsDelete])
          "aws kubectl delete pods" :=
  first_match_dangerous_all_matches_warned [probeNpm] [probeRmRf] probeRm
    "rm -rf /tmp".data [warnNpmPublish, warnDockerPush]
    [warnTerraformDestroy, warnAwsDelete] warnKubectlDelete
    "aws kubectl delete pods"
    (by decide)
    (by
      intro n hn
      simp only [List.mem_singleton] at hn
      subst hn
      decide)
    (by decide)

/-- C7: the claim that rule matching is pure and two-run deterministic is
right about the intent but false of the code: the console-log content
matcher of test-watcher.ts uses module-level `g`-flagged regexes whose
persistent lastIndex survives between calls, so calling it twice on the
identical content console.log(x) reports found on the first call and not
found on the second. -/
theorem console_log_matcher_two_run_divergence :
    ((containsConsoleLog initConsoleState "console.log(x)").1).1 = true
    ∧ ((containsConsoleLog
          (containsConsoleLog initConsoleState "console.log(x)").2
          "console.log(x)").1).1 = false :=
  ⟨by decide, by decide⟩

/-- C8: the empty input never matches: the empty string matches no rule of
any configured rule set (dangerous commands, warnings, sensitive-file
patterns via the empty basename, secret patterns, bash secret-exposure
patterns, console patterns), and an empty command, path or content triggers
no abort in any policy handler. -/
theorem empty_input_never_matches :
    (firstMatchIdx DANGEROUS_COMMANDS "".data).isSome = false
    ∧ warningLogs "" = []
    ∧ isSensitiveFile "" = false
    ∧ matchesAnySecret "" = false
    ∧ (firstMatchIdx ENV_BASH_PATTERNS "".data).isSome = false
    ∧ ((containsConsoleLog initConsoleState "").1).1 = false
    ∧ dangerousCmdBefore "bash" ⟨"", "", ""⟩ = HookResult.proceed
    ∧ envGuardBefore "read" ⟨"", "", ""⟩ = HookResult.proceed
    ∧ envGuardBefore "write" ⟨"", "", ""⟩ = HookResult.proceed
    ∧ envGuardBefore "edit" ⟨"", "", ""⟩ = HookResult.proceed
    ∧ envBashBefore "bash" ⟨"", "", ""⟩ = HookResult.proceed := by
  decide

/-- C9: after session.create, dispatching two file.edit events with two
distinct paths leaves the session's files-edited collection with exactly
two entries. -/
theorem session_two_edits_distinct_paths_count_two
    (t : Nat) (p₁ p₂ : String) (h : p₁ ≠ p₂) :
    (onFileEdit (onFileEdit (onSessionCreate t none) p₁) p₂).map
        (fun s => s.filesEdited.length) = some 2 := by
  simp [onSessionCreate, onFileEdit, fileEditStats, List.mem_singleton, Ne.symm h]

/-- Witness for C9 at a concrete start time and two concrete paths. -/
theorem session_two_edits_distinct_paths_count_two_witness :
    (onFileEdit (onFileEdit (onSessionCreate 0 none) "a.ts") "b.ts").map
        (fun s => s.filesEdited.length) = some 2 :=
  session_two_edits_distinct_paths_count_two 0 "a.ts" "b.ts" (by decide)

/-- C10: the files-edited list never acquires duplicates — every file.edit
event preserves Nodup through its membership check — whereas files-created
has no such invariant: two file.create events with the same path append it
twice, so the reported created-files count can exceed the number of
distinct created files. -/
theorem files_edited_nodup_files_created_dupes
    (s : SessionStats) (p q : String) (t : Nat) (h : s.filesEdited.Nodup) :
    (fileEditStats s p).filesEdited.Nodup
    ∧ (onFileCreate (onFileCreate (onSessionCreate t none) q) q).map
          (fun st => st.filesCreated) = some [q, q] := by
  constructor
  · by_cases hp : p ∈ s.filesEdited
    · simpa [fileEditStats, hp] using h
    · simp only [fileEditStats, hp, if_false]
      exact List.Nodup.append h (List.nodup_singleton p)
        (List.disjoint_singleton.2 hp)
  · simp [onSessionCreate, onFileCreate, fileCreateStats]

/-- Witness for C10 at a fresh record and concrete paths. -/
theorem files_edited_nodup_files_created_dupes_witness :
    (fileEditStats ⟨0, [], [], [], []⟩ "a.ts").filesEdited.Nodup
    ∧ (onFileCreate (onFileCreate (onSessionCreate 0 none) "b.ts") "b.ts").map
          (fun st => st.filesCreated) = some ["b.ts", "b.ts"] :=
  files_edited_nodup_files_created_dupes ⟨0, [], [], [], []⟩ "a.ts" "b.ts" 0
    List.nodup_nil
